import Mathlib

/-!
Shallow embedding of the puzzleloginserver request-handling layer
(package `loginserver`, current revision: the variant with the empty-login
guard in `Register`, the new-login uniqueness re-check in `ChangeLogin`,
and the filtered count in `ListUsers`).

The relational store is modelled as a list of `User` rows plus the
auto-increment counter the store uses to assign ids.  gorm's `First`
orders by primary key, so a lookup returns the matching row with the
least id.  `createdAt` is modelled directly as Unix epoch seconds, so the
`CreatedAt.Unix()` conversion in `convertUsersFromModel` is the identity.
-/

namespace LoginServer

/-- A persisted `model.User` row: `ID` (uint64 primary key), `CreatedAt`
(modelled as Unix epoch seconds), `Login`, `Password` (the stored
credential digest). -/
structure User where
  id : Nat
  createdAt : Int
  login : String
  password : String
deriving Repr, DecidableEq

/-- The relational store: the live rows plus the auto-increment counter
used to assign the next primary key on insert. -/
structure DB where
  users : List User
  nextId : Nat
deriving Repr, DecidableEq

/-- `pb.Response`: `Success` bool and `Id` uint64 (protobuf default 0). -/
structure Response where
  success : Bool
  id : Nat
deriving Repr, DecidableEq

/-- `pb.User`: the only fields a directory reply carries are `Id`,
`Login` and `RegistredAt` (Unix epoch seconds). -/
structure PbUser where
  id : Nat
  login : String
  registredAt : Int
deriving Repr, DecidableEq

/-- `pb.Users`: the reply of `GetUsers` and `ListUsers` (`Total` defaults
to 0 when unset, as in Go). -/
structure UsersReply where
  list : List PbUser
  total : Nat
deriving Repr, DecidableEq

/-- Accumulator step keeping the row with the least primary key. -/
def pickMin (acc : Option User) (u : User) : Option User :=
  match acc with
  | none => some u
  | some v => if u.id < v.id then some u else some v

/-- gorm `First(&user, cond)`: among the rows satisfying the condition,
return the one with the least primary key (gorm adds `ORDER BY id`),
or not-found. -/
def firstBy (users : List User) (p : User → Bool) : Option User :=
  (users.filter p).foldl pickMin none

theorem foldl_pickMin_some (rest : List User) (v : User) :
    ∃ w, rest.foldl pickMin (some v) = some w := by
  induction rest generalizing v with
  | nil => exact ⟨v, rfl⟩
  | cons x xs ih =>
    simp only [List.foldl_cons, pickMin]
    split <;> exact ih _

theorem foldl_pickMin_mem (m : List User) (acc : Option User) (u : User)
    (h : m.foldl pickMin acc = some u) : u ∈ m ∨ acc = some u := by
  induction m generalizing acc with
  | nil => exact Or.inr h
  | cons x xs ih =>
    rcases ih (pickMin acc x) h with hmem | hacc
    · exact Or.inl (List.mem_cons_of_mem _ hmem)
    · unfold pickMin at hacc
      match acc with
      | none =>
        simp only [Option.some.injEq] at hacc
        exact Or.inl (hacc ▸ List.mem_cons_self _ _)
      | some v =>
        simp only at hacc
        split at hacc
        · simp only [Option.some.injEq] at hacc
          exact Or.inl (hacc ▸ List.mem_cons_self _ _)
        · exact Or.inr hacc

theorem firstBy_some_mem {users : List User} {p : User → Bool} {u : User}
    (h : firstBy users p = some u) : u ∈ users ∧ p u = true := by
  unfold firstBy at h
  rcases foldl_pickMin_mem _ _ _ h with hmem | hacc
  · exact ⟨(List.mem_filter.mp hmem).1, (List.mem_filter.mp hmem).2⟩
  · cases hacc

theorem firstBy_eq_none {users : List User} {p : User → Bool}
    (h : ∀ u ∈ users, p u = false) : firstBy users p = none := by
  unfold firstBy
  have : users.filter p = [] := by
    rw [List.filter_eq_nil_iff]
    intro a ha
    simp [h a ha]
  rw [this]
  rfl

theorem firstBy_isSome {users : List User} {p : User → Bool} {u : User}
    (hu : u ∈ users) (hp : p u = true) : ∃ w, firstBy users p = some w := by
  unfold firstBy
  have hmem : u ∈ users.filter p := List.mem_filter.mpr ⟨hu, hp⟩
  match hfl : users.filter p with
  | [] => rw [hfl] at hmem; cases hmem
  | x :: xs =>
    simp only [List.foldl_cons, pickMin]
    exact foldl_pickMin_some xs x

theorem firstBy_none_filter {users : List User} {p : User → Bool}
    (h : firstBy users p = none) : users.filter p = [] := by
  match hfl : users.filter p with
  | [] => rfl
  | x :: xs =>
    unfold firstBy at h
    rw [hfl] at h
    simp only [List.foldl_cons, pickMin] at h
    obtain ⟨w, hw⟩ := foldl_pickMin_some xs x
    rw [hw] at h
    cases h

theorem firstBy_unique {users : List User} {p : User → Bool} {u : User}
    (hu : u ∈ users) (hp : p u = true)
    (huniq : ∀ v ∈ users, p v = true → v = u) : firstBy users p = some u := by
  obtain ⟨w, hw⟩ := firstBy_isSome hu hp
  obtain ⟨hwmem, hwp⟩ := firstBy_some_mem hw
  rw [hw, huniq w hwmem hwp]

/-- Does the candidate occur as a contiguous run inside the haystack?
Worker for the LIKE-with-wildcards match. -/
def containsSub (pat : List Char) : List Char → Bool
  | [] => pat.isEmpty
  | c :: rest => pat.isPrefixOf (c :: rest) || containsSub pat rest

/-- Modelled from the spec: `dbclient.BuildLikeFilter` lives in the external
repository puzzledbclient; the spec states it wraps the filter as
`%filter%`, so a login matches exactly when the filter occurs as a
substring of the login. -/
def likeMatch (fil login : String) : Bool :=
  containsSub fil.data login.data

/-- Modelled from the spec: `dbclient.Paginate` lives in the external
repository puzzledbclient; the spec states it windows the ordered rows
with offset `start` and limit `end - start`, and that a window with
`end < start` is to be treated as returning zero rows. -/
def pageWindow (start stop : Nat) (l : List User) : List User :=
  (l.drop start).take (stop - start)

/-- Insert a row into a login-sorted list, after all strictly smaller
logins and before equal ones (stable). -/
def insertByLogin (u : User) : List User → List User
  | [] => [u]
  | v :: rest =>
    if v.login < u.login then v :: insertByLogin u rest else u :: v :: rest

/-- The store's `ORDER BY login asc`: a stable insertion sort on the
login field. -/
def sortByLogin : List User → List User
  | [] => []
  | u :: rest => insertByLogin u (sortByLogin rest)

/-- `convertUsersFromModel`: project each row to the reply shape
`{Id, Login, RegistredAt: CreatedAt.Unix()}`; the stored credential
digest is dropped. -/
def convertUsersFromModel (users : List User) : List PbUser :=
  users.map (fun u => ⟨u.id, u.login, u.createdAt⟩)

/-- `server.Verify`: look the row up by login; not-found or a digest
mismatch answer `{success:false}` (`&pb.Response{}`), a match answers
`{success:true, id}`. -/
def verify (db : DB) (login salted : String) : Response :=
  match firstBy db.users (fun u => u.login == login) with
  | none => ⟨false, 0⟩
  | some user =>
    if salted != user.password then ⟨false, 0⟩
    else ⟨true, user.id⟩

/-- `server.Register`: reject an empty login, reject a login already in
use, otherwise insert a new row (the store assigns the next id and the
creation time `now`) and answer `{success:true, id}`.  Returns the reply
together with the store state after the call. -/
def register (db : DB) (now : Int) (login salted : String) :
    Response × DB :=
  if login == "" then (⟨false, 0⟩, db)
  else
    match firstBy db.users (fun u => u.login == login) with
    | some _ => (⟨false, 0⟩, db)
    | none =>
      let user : User := ⟨db.nextId, now, login, salted⟩
      (⟨true, user.id⟩, ⟨db.users ++ [user], db.nextId + 1⟩)

/-- `server.ChangeLogin`: reject an empty new login; look the row up by
id (not-found answers `{success:false}`); reject an old-digest mismatch;
reject a new login already in use by any row; otherwise update the row,
setting `login` to the new login and `password` to the request's
`NewSalted`, in one store call. -/
def changeLogin (db : DB) (userId : Nat)
    (oldSalted newLogin newSalted : String) : Response × DB :=
  if newLogin == "" then (⟨false, 0⟩, db)
  else
    match firstBy db.users (fun u => u.id == userId) with
    | none => (⟨false, 0⟩, db)
    | some user =>
      if oldSalted != user.password then (⟨false, 0⟩, db)
      else
        match firstBy db.users (fun u => u.login == newLogin) with
        | some _ => (⟨false, 0⟩, db)
        | none =>
          (⟨true, 0⟩,
            ⟨db.users.map (fun w =>
                if w.id == user.id then
                  { w with login := newLogin, password := newSalted }
                else w),
              db.nextId⟩)

/-- `server.ChangePassword`: look the row up by id (not-found answers
`{success:false}`); reject an old-digest mismatch; otherwise update the
`password` column to `NewSalted` in one store call. -/
def changePassword (db : DB) (userId : Nat)
    (oldSalted newSalted : String) : Response × DB :=
  match firstBy db.users (fun u => u.id == userId) with
  | none => (⟨false, 0⟩, db)
  | some user =>
    if oldSalted != user.password then (⟨false, 0⟩, db)
    else
      (⟨true, 0⟩,
        ⟨db.users.map (fun w =>
            if w.id == user.id then { w with password := newSalted }
            else w),
          db.nextId⟩)

/-- `server.GetUsers`: fetch the rows whose id is in the requested set
and project them with `convertUsersFromModel` (`Total` stays at the
protobuf default 0). -/
def getUsers (db : DB) (ids : List Nat) : UsersReply :=
  ⟨convertUsersFromModel (db.users.filter (fun u => ids.contains u.id)), 0⟩

/-- `server.ListUsers`: count the rows matching the filter (all rows when
the filter is empty); when the count is 0 answer the empty `pb.Users{}`
immediately; otherwise run the page query (matching rows ordered by login
ascending, windowed by `Paginate`) and answer the page with the total.
The returned flag records whether the page query was issued: it is
`true` exactly on the non-early-return path of the source. -/
def listUsers (db : DB) (start stop : Nat) (fil : String) :
    UsersReply × Bool :=
  let noFilter := fil == ""
  let matching :=
    db.users.filter (fun u => noFilter || likeMatch fil u.login)
  let total := matching.length
  if total = 0 then (⟨[], 0⟩, false)
  else
    let page := pageWindow start stop (sortByLogin matching)
    (⟨convertUsersFromModel page, total⟩, true)

/-- `server.Delete`: remove every row with the given id from the store
and answer `{success:true}`, whether or not such a row existed. -/
def delete (db : DB) (userId : Nat) : Response × DB :=
  (⟨true, 0⟩, ⟨db.users.filter (fun u => u.id != userId), db.nextId⟩)

/-- The documented store invariant: at most one live row per login. -/
def loginUnique (db : DB) : Prop :=
  ∀ u ∈ db.users, ∀ v ∈ db.users, u.login = v.login → u = v

/-- The primary-key invariant: at most one live row per id. -/
def idUnique (db : DB) : Prop :=
  ∀ u ∈ db.users, ∀ v ∈ db.users, u.id = v.id → u = v

/-- C1: Verify answers `{success:true, id:storedId}` exactly when a row
with that exact login exists and its stored digest equals the supplied
digest; when no such row exists, or the stored digest differs, it answers
`{success:false}` with no error. -/
theorem verify_spec (db : DB) (l d : String) (h : loginUnique db) :
    (∀ u ∈ db.users, u.login = l → u.password = d →
      verify db l d = ⟨true, u.id⟩) ∧
    ((∀ u ∈ db.users, u.login = l → u.password ≠ d) →
      verify db l d = ⟨false, 0⟩) := by
  constructor
  · intro u hu hl hd
    have hfb : firstBy db.users (fun v => v.login == l) = some u := by
      refine firstBy_unique hu (by simp [hl]) ?_
      intro v hv hpv
      have hvl : v.login = l := by simpa using hpv
      exact h v hv u hu (hvl.trans hl.symm)
    simp [verify, hfb, hd]
  · intro hno
    cases hfb : firstBy db.users (fun v => v.login == l) with
    | none => simp [verify, hfb]
    | some w =>
      obtain ⟨hwmem, hwp⟩ := firstBy_some_mem hfb
      have hwl : w.login = l := by simpa using hwp
      have hwd : w.password ≠ d := hno w hwmem hwl
      have hdw : ¬ d = w.password := fun hdw => hwd hdw.symm
      simp [verify, hfb, hdw]

/-- C1 witness: a concrete one-row store where Verify succeeds with the
stored id. -/
theorem verify_spec_witness :
    verify ⟨[⟨1, 0, "alice", "h1"⟩], 2⟩ "alice" "h1" = ⟨true, 1⟩ :=
  (verify_spec ⟨[⟨1, 0, "alice", "h1"⟩], 2⟩ "alice" "h1"
      (by unfold loginUnique; decide)).1
    ⟨1, 0, "alice", "h1"⟩ (by decide) rfl rfl

/-- C3: Register with an empty login answers `{success:false}` without
error and leaves the store exactly as it was. -/
theorem register_empty_login (db : DB) (now : Int) (d : String) :
    register db now "" d = (⟨false, 0⟩, db) := by
  simp [register]

/-- C8: Delete answers `{success:true}` whether or not a row with the id
exists, and deleting an absent id leaves the store unchanged. -/
theorem delete_idempotent (db : DB) (userId : Nat) :
    (delete db userId).1 = ⟨true, 0⟩ ∧
    ((∀ u ∈ db.users, u.id ≠ userId) → (delete db userId).2 = db) := by
  cases db with
  | mk users nextId =>
    refine ⟨rfl, fun h => ?_⟩
    simp only [delete, DB.mk.injEq, and_true]
    rw [List.filter_eq_self]
    intro u hu
    simpa using h u hu

/-- C8 witness: deleting id 5 from a store holding only id 1 succeeds and
changes nothing. -/
theorem delete_idempotent_witness :
    (delete ⟨[⟨1, 0, "alice", "h1"⟩], 2⟩ 5).1 = ⟨true, 0⟩ ∧
      (delete ⟨[⟨1, 0, "alice", "h1"⟩], 2⟩ 5).2 = ⟨[⟨1, 0, "alice", "h1"⟩], 2⟩ :=
  ⟨(delete_idempotent ⟨[⟨1, 0, "alice", "h1"⟩], 2⟩ 5).1,
    (delete_idempotent ⟨[⟨1, 0, "alice", "h1"⟩], 2⟩ 5).2 (by decide)⟩

/-- C2 counterexample: on a one-row store a successful ChangeLogin call
whose request carries a new digest "x" rewrites the stored credential
digest from "d" to "x", so "every other stored field, in particular
credentialDigest, is unchanged" fails at this input. -/
theorem changeLogin_password_cex :
    (changeLogin ⟨[⟨1, 0, "a", "d"⟩], 2⟩ 1 "d" "b" "x").1.success = true ∧
    (changeLogin ⟨[⟨1, 0, "a", "d"⟩], 2⟩ 1 "d" "b" "x").2.users
      = [⟨1, 0, "b", "x"⟩] := by
  decide

/-- C2 amended: a successful ChangeLogin updates the target row's login
to the new login AND its credential digest to the request's new digest;
the row's id and createdAt, every other row, and the id counter are
unchanged. -/
theorem changeLogin_frame (db : DB) (uid : Nat) (old nl ns : String)
    (h : (changeLogin db uid old nl ns).1.success = true) :
    (changeLogin db uid old nl ns).2.users
        = db.users.map (fun w =>
            if w.id = uid then { w with login := nl, password := ns }
            else w) ∧
    (changeLogin db uid old nl ns).2.nextId = db.nextId := by
  cases hnl : nl == "" with
  | true => simp [changeLogin, hnl] at h
  | false =>
    cases hfb : firstBy db.users (fun u => u.id == uid) with
    | none => simp [changeLogin, hnl, hfb] at h
    | some user =>
      cases hpw : old != user.password with
      | true => simp [changeLogin, hnl, hfb, hpw] at h
      | false =>
        cases hfb2 : firstBy db.users (fun u => u.login == nl) with
        | some w => simp [changeLogin, hnl, hfb, hpw, hfb2] at h
        | none =>
          have huid : user.id = uid := by
            have := (firstBy_some_mem hfb).2
            simpa using this
          simp only [changeLogin, hnl, hfb, hpw, hfb2]
          refine ⟨List.map_congr_left fun w _ => ?_, rfl⟩
          simp [huid, beq_iff_eq]

/-- C2 witness: the amended frame condition evaluated on a concrete
one-row store. -/
theorem changeLogin_frame_witness :
    (changeLogin ⟨[⟨1, 0, "a", "d"⟩], 2⟩ 1 "d" "b" "x").2.users
        = [(⟨1, 0, "a", "d"⟩ : User)].map (fun w =>
            if w.id = 1 then { w with login := "b", password := "x" }
            else w) ∧
    (changeLogin ⟨[⟨1, 0, "a", "d"⟩], 2⟩ 1 "d" "b" "x").2.nextId = 2 :=
  changeLogin_frame ⟨[⟨1, 0, "a", "d"⟩], 2⟩ 1 "d" "b" "x" (by decide)

/-- C4: when the caller's old digest matches but the requested new login
already belongs to another stored row, ChangeLogin answers
`{success:false}` and leaves the store unchanged: uniqueness is
re-validated at mutation time. -/
theorem changeLogin_uniqueness_recheck (db : DB) (uid : Nat)
    (old nl ns : String) (u v : User)
    (hu : u ∈ db.users) (hid : u.id = uid) (hmatch : u.password = old)
    (hnl : nl ≠ "") (hv : v ∈ db.users) (hvl : v.login = nl)
    (hvne : v.id ≠ uid) :
    changeLogin db uid old nl ns = (⟨false, 0⟩, db) := by
  cases hnlb : nl == "" with
  | true => exact absurd (by simpa using hnlb) hnl
  | false =>
    cases hfb : firstBy db.users (fun w => w.id == uid) with
    | none => simp [changeLogin, hnlb, hfb]
    | some user =>
      cases hpw : old != user.password with
      | true => simp [changeLogin, hnlb, hfb, hpw]
      | false =>
        obtain ⟨w, hw⟩ :=
          firstBy_isSome (p := fun x => x.login == nl) hv (by simp [hvl])
        simp [changeLogin, hnlb, hfb, hpw, hw]

/-- C4 witness: a concrete two-row store where renaming row 1 to the
login of row 2 is rejected and the store is untouched. -/
theorem changeLogin_uniqueness_recheck_witness :
    changeLogin ⟨[⟨1, 0, "a", "d"⟩, ⟨2, 0, "b", "e"⟩], 3⟩ 1 "d" "b" "x"
      = (⟨false, 0⟩, ⟨[⟨1, 0, "a", "d"⟩, ⟨2, 0, "b", "e"⟩], 3⟩) :=
  changeLogin_uniqueness_recheck ⟨[⟨1, 0, "a", "d"⟩, ⟨2, 0, "b", "e"⟩], 3⟩
    1 "d" "b" "x" ⟨1, 0, "a", "d"⟩ ⟨2, 0, "b", "e"⟩
    (by decide) rfl rfl (by decide) (by decide) rfl (by decide)

/-- C7: when the stored row for the id exists and the supplied old digest
differs from its stored digest, both ChangeLogin and ChangePassword
answer `{success:false}` without error and leave the store exactly as it
was. -/
theorem oldDigest_mismatch_rejected (db : DB) (uid : Nat) (u : User)
    (hdb : idUnique db) (hu : u ∈ db.users) (hid : u.id = uid)
    (old nl ns nd : String) (hne : old ≠ u.password) :
    changeLogin db uid old nl ns = (⟨false, 0⟩, db) ∧
    changePassword db uid old nd = (⟨false, 0⟩, db) := by
  have hfb : firstBy db.users (fun w => w.id == uid) = some u := by
    refine firstBy_unique hu (by simp [hid]) ?_
    intro w hw hwp
    have hwid : w.id = uid := by simpa using hwp
    exact hdb w hw u hu (hwid.trans hid.symm)
  have hpw : (old != u.password) = true := by simpa using hne
  constructor
  · cases hnlb : nl == "" with
    | true => simp [changeLogin, hnlb]
    | false => simp [changeLogin, hnlb, hfb, hpw]
  · simp [changePassword, hfb, hpw]

/-- C7 witness: a wrong old digest leaves a concrete one-row store
untouched under both mutation operations. -/
theorem oldDigest_mismatch_rejected_witness :
    changeLogin ⟨[⟨1, 0, "a", "d"⟩], 2⟩ 1 "wrong" "b" "x"
        = (⟨false, 0⟩, ⟨[⟨1, 0, "a", "d"⟩], 2⟩) ∧
    changePassword ⟨[⟨1, 0, "a", "d"⟩], 2⟩ 1 "wrong" "x"
        = (⟨false, 0⟩, ⟨[⟨1, 0, "a", "d"⟩], 2⟩) :=
  oldDigest_mismatch_rejected ⟨[⟨1, 0, "a", "d"⟩], 2⟩ 1 ⟨1, 0, "a", "d"⟩
    (by unfold idUnique; decide) (by decide) rfl "wrong" "b" "x" "x"
    (by decide)

/-- C6: after a successful registration of a non-empty login, registering
the same login again answers `{success:false}`, leaves the store
unchanged, and the store holds exactly one row with that login. -/
theorem register_twice (db : DB) (t1 t2 : Int) (l d1 d2 : String)
    (hl : l ≠ "") (h1 : (register db t1 l d1).1.success = true) :
    (register (register db t1 l d1).2 t2 l d2).1 = ⟨false, 0⟩ ∧
    (register (register db t1 l d1).2 t2 l d2).2 = (register db t1 l d1).2 ∧
    ((register db t1 l d1).2.users.filter
        (fun u => u.login == l)).length = 1 := by
  have hlb : (l == "") = false := by simpa using hl
  cases hfb : firstBy db.users (fun u => u.login == l) with
  | some w => simp [register, hlb, hfb] at h1
  | none =>
    have hfilter : db.users.filter (fun u => u.login == l) = [] :=
      firstBy_none_filter hfb
    have hreg : register db t1 l d1
        = (⟨true, db.nextId⟩,
            ⟨db.users ++ [⟨db.nextId, t1, l, d1⟩], db.nextId + 1⟩) := by
      simp [register, hlb, hfb]
    rw [hreg]
    have hnew : (⟨db.nextId, t1, l, d1⟩ : User)
        ∈ db.users ++ [⟨db.nextId, t1, l, d1⟩] := by simp
    obtain ⟨w, hw⟩ :=
      firstBy_isSome (p := fun x => x.login == l) hnew (by simp)
    refine ⟨?_, ?_, ?_⟩
    · simp [register, hlb, hw]
    · simp [register, hlb, hw]
    · simp [List.filter_append, hfilter]

/-- C6 witness: registering "alice" twice on an empty store. -/
theorem register_twice_witness :
    (register (register ⟨[], 1⟩ 0 "alice" "x").2 0 "alice" "y").1
        = ⟨false, 0⟩ ∧
    (register (register ⟨[], 1⟩ 0 "alice" "x").2 0 "alice" "y").2
        = (register ⟨[], 1⟩ 0 "alice" "x").2 ∧
    ((register ⟨[], 1⟩ 0 "alice" "x").2.users.filter
        (fun u => u.login == "alice")).length = 1 :=
  register_twice ⟨[], 1⟩ 0 0 "alice" "x" "y" (by decide) (by decide)

/-- C9: registering a previously-unused non-empty login succeeds with the
fresh id the store assigns (distinct from every live id when the counter
dominates them), and Verify with the same login and digest on the
resulting store succeeds with that same id. -/
theorem register_verify_roundtrip (db : DB) (now : Int) (l d : String)
    (hl : l ≠ "") (habs : ∀ u ∈ db.users, u.login ≠ l) :
    (register db now l d).1 = ⟨true, db.nextId⟩ ∧
    ((∀ u ∈ db.users, u.id < db.nextId) →
      ∀ u ∈ db.users, u.id ≠ (register db now l d).1.id) ∧
    verify (register db now l d).2 l d
      = ⟨true, (register db now l d).1.id⟩ := by
  have hlb : (l == "") = false := by simpa using hl
  have hfb : firstBy db.users (fun u => u.login == l) = none :=
    firstBy_eq_none (fun u hu => by simpa using habs u hu)
  have hfilter : db.users.filter (fun u => u.login == l) = [] :=
    firstBy_none_filter hfb
  have hreg : register db now l d
      = (⟨true, db.nextId⟩,
          ⟨db.users ++ [⟨db.nextId, now, l, d⟩], db.nextId + 1⟩) := by
    simp [register, hlb, hfb]
  rw [hreg]
  refine ⟨rfl, fun hlt u hu => Nat.ne_of_lt (hlt u hu), ?_⟩
  have hfb2 : firstBy (db.users ++ [⟨db.nextId, now, l, d⟩])
      (fun u => u.login == l) = some ⟨db.nextId, now, l, d⟩ := by
    unfold firstBy
    rw [List.filter_append, hfilter]
    simp [pickMin]
  simp [verify, hfb2]

/-- C9 witness: register "alice" on the empty store, then verify. -/
theorem register_verify_roundtrip_witness :
    (register ⟨[], 1⟩ 0 "alice" "x").1 = ⟨true, (⟨[], 1⟩ : DB).nextId⟩ ∧
    ((∀ u ∈ (⟨[], 1⟩ : DB).users, u.id < (⟨[], 1⟩ : DB).nextId) →
      ∀ u ∈ (⟨[], 1⟩ : DB).users,
        u.id ≠ (register ⟨[], 1⟩ 0 "alice" "x").1.id) ∧
    verify (register ⟨[], 1⟩ 0 "alice" "x").2 "alice" "x"
      = ⟨true, (register ⟨[], 1⟩ 0 "alice" "x").1.id⟩ :=
  register_verify_roundtrip ⟨[], 1⟩ 0 "alice" "x" (by decide) (by decide)

/-- C5: the reported total is the number of stored rows matching the
filter (all rows when the filter is empty), independent of the page
window; and when that count is zero the reply is the empty list with
total 0 and no page query is issued. -/
theorem listUsers_total_spec (db : DB) (start stop : Nat) (fil : String) :
    (listUsers db start stop fil).1.total
      = (db.users.filter
          (fun u => (fil == "") || likeMatch fil u.login)).length ∧
    (fil = "" → (listUsers db start stop fil).1.total = db.users.length) ∧
    ((db.users.filter
        (fun u => (fil == "") || likeMatch fil u.login)).length = 0 →
      listUsers db start stop fil = (⟨[], 0⟩, false)) := by
  refine ⟨?_, ?_, ?_⟩
  · by_cases hz : (db.users.filter
        (fun u => (fil == "") || likeMatch fil u.login)).length = 0
    · simp [listUsers, hz]
    · simp [listUsers, hz]
  · intro hfil
    subst hfil
    by_cases hz : db.users.length = 0
    · simp [listUsers, List.length_eq_zero.mp hz]
    · simp [listUsers, hz]
  · intro hz
    simp [listUsers, hz]

/-- C5 witness: a filter matching nothing on a one-row store yields the
empty reply with total 0 and no page query, for a nonzero window. -/
theorem listUsers_total_spec_witness :
    listUsers ⟨[⟨1, 0, "alice", "h"⟩], 2⟩ 0 2 "zz" = (⟨[], 0⟩, false) :=
  (listUsers_total_spec ⟨[⟨1, 0, "alice", "h"⟩], 2⟩ 0 2 "zz").2.2
    (by decide)

/-- Agreement of two rows on every field a directory reply can expose:
id, login and creation time (everything except the credential digest). -/
def pubEq (u v : User) : Prop :=
  u.id = v.id ∧ u.login = v.login ∧ u.createdAt = v.createdAt

theorem forall2_filter_pub {p : User → Bool}
    (hp : ∀ a b, pubEq a b → p a = p b) :
    ∀ {l1 l2 : List User}, List.Forall₂ pubEq l1 l2 →
      List.Forall₂ pubEq (l1.filter p) (l2.filter p) := by
  intro l1 l2 h
  induction h with
  | nil => exact List.Forall₂.nil
  | cons hab h2 ih =>
    rename_i a b l1' l2'
    rw [List.filter_cons, List.filter_cons, ← hp a b hab]
    cases hpa : p a with
    | false => simpa using ih
    | true => simpa using List.Forall₂.cons hab ih

theorem forall2_map_pub {f : User → PbUser}
    (hf : ∀ a b, pubEq a b → f a = f b) :
    ∀ {l1 l2 : List User}, List.Forall₂ pubEq l1 l2 →
      l1.map f = l2.map f := by
  intro l1 l2 h
  induction h with
  | nil => rfl
  | cons hab h2 ih => simp [hf _ _ hab, ih]

theorem forall2_insertByLogin {u v : User} (huv : pubEq u v) :
    ∀ {l1 l2 : List User}, List.Forall₂ pubEq l1 l2 →
      List.Forall₂ pubEq (insertByLogin u l1) (insertByLogin v l2) := by
  intro l1 l2 h
  induction h with
  | nil => exact List.Forall₂.cons huv List.Forall₂.nil
  | cons hab h2 ih =>
    rename_i a b l1' l2'
    simp only [insertByLogin]
    have hiff : a.login < u.login ↔ b.login < v.login := by
      rw [hab.2.1, huv.2.1]
    by_cases hc : b.login < v.login
    · rw [if_pos (hiff.mpr hc), if_pos hc]
      exact List.Forall₂.cons hab ih
    · rw [if_neg (fun hx => hc (hiff.mp hx)), if_neg hc]
      exact List.Forall₂.cons huv (List.Forall₂.cons hab h2)

theorem forall2_sortByLogin :
    ∀ {l1 l2 : List User}, List.Forall₂ pubEq l1 l2 →
      List.Forall₂ pubEq (sortByLogin l1) (sortByLogin l2) := by
  intro l1 l2 h
  induction h with
  | nil => exact List.Forall₂.nil
  | cons hab h2 ih =>
    simp only [sortByLogin]
    exact forall2_insertByLogin hab ih

/-- C10: directory replies carry only id, login and registration time, so
two stores whose rows agree on those fields — differing at most in the
stored credential digests — produce identical GetUsers and ListUsers
replies, for every id set, page window and filter. -/
theorem replies_digest_independent (db1 db2 : DB)
    (h : List.Forall₂ pubEq db1.users db2.users)
    (ids : List Nat) (start stop : Nat) (fil : String) :
    getUsers db1 ids = getUsers db2 ids ∧
    (listUsers db1 start stop fil).1 = (listUsers db2 start stop fil).1 := by
  have hconv : ∀ a b, pubEq a b →
      ((fun u : User => (⟨u.id, u.login, u.createdAt⟩ : PbUser)) a)
        = ((fun u : User => (⟨u.id, u.login, u.createdAt⟩ : PbUser)) b) := by
    intro a b hab
    obtain ⟨h1, h2, h3⟩ := hab
    simp only [h1, h2, h3]
  constructor
  · have hfil := forall2_filter_pub (p := fun u => ids.contains u.id)
      (fun a b hab => by simp only [hab.1]) h
    have hmap := forall2_map_pub hconv hfil
    simp only [getUsers, convertUsersFromModel]
    rw [hmap]
  · have hp : ∀ a b, pubEq a b →
        ((fun u : User => (fil == "") || likeMatch fil u.login) a)
          = ((fun u : User => (fil == "") || likeMatch fil u.login) b) := by
      intro a b hab
      simp only [hab.2.1]
    have hm := forall2_filter_pub hp h
    have hlen := hm.length_eq
    by_cases hz : (db1.users.filter
        (fun u => (fil == "") || likeMatch fil u.login)).length = 0
    · have hz2 : (db2.users.filter
          (fun u => (fil == "") || likeMatch fil u.login)).length = 0 := by
        rw [← hlen]; exact hz
      simp [listUsers, hz, hz2]
    · have hz2 : ¬ (db2.users.filter
          (fun u => (fil == "") || likeMatch fil u.login)).length = 0 := by
        rw [← hlen]; exact hz
      have hpage := List.forall₂_take (stop - start)
        (List.forall₂_drop start (forall2_sortByLogin hm))
      have hmap := forall2_map_pub hconv hpage
      simp [listUsers, pageWindow, convertUsersFromModel, hz, hz2,
        hlen, hmap]

/-- C10 witness: two one-row stores differing only in the stored digest
give the same GetUsers and ListUsers replies. -/
theorem replies_digest_independent_witness :
    getUsers ⟨[⟨1, 0, "a", "d"⟩], 2⟩ [1]
        = getUsers ⟨[⟨1, 0, "a", "e"⟩], 2⟩ [1] ∧
    (listUsers ⟨[⟨1, 0, "a", "d"⟩], 2⟩ 0 2 "").1
        = (listUsers ⟨[⟨1, 0, "a", "e"⟩], 2⟩ 0 2 "").1 :=
  replies_digest_independent ⟨[⟨1, 0, "a", "d"⟩], 2⟩
    ⟨[⟨1, 0, "a", "e"⟩], 2⟩
    (List.Forall₂.cons ⟨rfl, rfl, rfl⟩ List.Forall₂.nil) [1] 0 2 ""

end LoginServer
